import Mathlib

/-!
Verification of the glycol aircraft monitoring core against its source.

Shallow embedding of:
- src/glycol/monitor.py  (AircraftMonitor: filters, altitude ceiling, transition diff)
- src/glycol/api.py      (OpenSkyClient.get_states: backoff, 429/401 handling, parsing)
- src/glycol/auth.py     (OpenSkyAuth token lifecycle, as needed by get_states)
- src/glycol/web.py      (GlycolWebApp._broadcast_event fan-out; _poll_loop sleep)
- src/glycol/ui.py       (GlycolApp._poll_loop sleep)

Python floats are modelled as rationals (the claims concern only order
comparisons and exact additions), wall-clock reads inside one call are
modelled as a single `now` parameter, and Python dicts keyed by strings are
modelled as association lists with in-place update (`dinsert`) and
first-match lookup (`dlookup`), which agrees with dict semantics for every
observation made here.
-/

set_option autoImplicit false

namespace Glycol

/-! ### Python dict model (string-keyed) -/

/-- Lookup in an association list modelling a Python dict (`d.get(key)`). -/
def dlookup {β : Type} : List (String × β) → String → Option β
  | [], _ => none
  | (k, v) :: rest, key => if k = key then some v else dlookup rest key

/-- In-place update/append modelling Python dict assignment `d[key] = val`. -/
def dinsert {β : Type} : List (String × β) → String → β → List (String × β)
  | [], key, val => [(key, val)]
  | (k, v) :: rest, key, val =>
    if k = key then (k, val) :: rest else (k, v) :: dinsert rest key val

/-! ### src/glycol/monitor.py — AircraftMonitor -/

/-- One state-vector dict as consumed by `AircraftMonitor` (the fields the
monitor reads, with `none` for a missing/null value; `icao24` models
`state.get("icao24", "")`, `on_ground` models `state.get("on_ground", False)`). -/
structure PState where
  icao24 : String
  callsign : Option String
  baro_altitude : Option ℚ
  on_ground : Bool
  latitude : Option ℚ
  longitude : Option ℚ
  velocity : Option ℚ
  true_track : Option ℚ
  vertical_rate : Option ℚ
  squawk : Option String
  category : Option Int
  origin_country : Option String
deriving DecidableEq, Repr

/-- Event dict built by `AircraftMonitor._make_event`. -/
structure Event where
  type : String
  timestamp : String
  icao24 : String
  callsign : String
  latitude : Option ℚ
  longitude : Option ℚ
  altitude_m : Option ℚ
  velocity_ms : Option ℚ
  heading : Option ℚ
  vertical_rate : Option ℚ
  on_ground : Bool
  squawk : Option String
  category : Option Int
  origin_country : Option String
deriving DecidableEq, Repr

/-- Mutable state of an `AircraftMonitor` instance. `prev_states` models
`self._prev_states` (icao24 -> on_ground). -/
structure Monitor where
  filter_mode : Option String
  filter_values : List String
  ceiling_m : Option ℚ
  icao_to_type : List (String × String)
  prev_states : List (String × Bool)
deriving DecidableEq, Repr

/-- `AircraftMonitor.FEET_TO_METERS`. -/
def FEET_TO_METERS : ℚ := 0.3048

/-- `AircraftMonitor.__init__`. -/
def mkMonitor (filter_mode : Option String) (filter_values : Option (List String))
    (ceiling_ft : Option ℚ) (icao_to_type : List (String × String)) : Monitor :=
  { filter_mode := filter_mode
    filter_values := (filter_values.getD []).map (fun v => v.trim.toUpper)
    ceiling_m := ceiling_ft.map (fun c => c * FEET_TO_METERS)
    icao_to_type := icao_to_type
    prev_states := [] }

/-- `AircraftMonitor.set_filter` (monitor.py lines 36-39). -/
def set_filter (m : Monitor) (filter_mode : Option String)
    (filter_values : Option (List String)) : Monitor :=
  { m with
    filter_mode := filter_mode
    filter_values := (filter_values.getD []).map (fun v => v.trim.toUpper) }

/-- `AircraftMonitor.reset` (monitor.py lines 102-104). -/
def reset (m : Monitor) : Monitor :=
  { m with prev_states := [] }

/-- `AircraftMonitor._matches_filter` (monitor.py lines 41-63). -/
def matches_filter (m : Monitor) (s : PState) : Bool :=
  match m.filter_mode with
  | none => true
  | some mode =>
    if mode = "aircraft" then
      let icao24 := s.icao24.toUpper
      let callsign := (s.callsign.getD "").toUpper
      m.filter_values.contains icao24 || m.filter_values.contains callsign
    else if mode = "type_group" then
      let icao24 := s.icao24.toLower
      match dlookup m.icao_to_type icao24 with
      | some type_code =>
        if type_code = "" then false else m.filter_values.contains type_code.toUpper
      | none => false
    else true

/-- The altitude-ceiling skip condition of `process_states`
(monitor.py lines 79-82): true when the state is dropped. -/
def ceilingExcluded (m : Monitor) (s : PState) : Bool :=
  match m.ceiling_m with
  | none => false
  | some cm =>
    match s.baro_altitude with
    | none => false
    | some alt => decide (cm < alt)

/-- A state that survives both the filter test and the ceiling test. -/
def passes (m : Monitor) (s : PState) : Bool :=
  matches_filter m s && !ceilingExcluded m s

/-- `AircraftMonitor._make_event` (monitor.py lines 106-123). -/
def make_event (event_type : String) (s : PState) (timestamp : String) : Event :=
  { type := event_type
    timestamp := timestamp
    icao24 := s.icao24
    callsign := s.callsign.getD ""
    latitude := s.latitude
    longitude := s.longitude
    altitude_m := s.baro_altitude
    velocity_ms := s.velocity
    heading := s.true_track
    vertical_rate := s.vertical_rate
    on_ground := s.on_ground
    squawk := s.squawk
    category := s.category
    origin_country := s.origin_country }

/-- Body of the `for state in states` loop of `process_states`
(monitor.py lines 75-98), threading the `current` dict. -/
def procAux (m : Monitor) (now : String) :
    List PState → List (String × Bool) → List Event × List (String × Bool)
  | [], current => ([], current)
  | s :: rest, current =>
    if matches_filter m s = false then procAux m now rest current
    else if ceilingExcluded m s then procAux m now rest current
    else
      let current' := dinsert current s.icao24 s.on_ground
      let evs :=
        match dlookup m.prev_states s.icao24 with
        | some was_ground =>
          if was_ground && !s.on_ground then [make_event "takeoff" s now]
          else if !was_ground && s.on_ground then [make_event "landing" s now]
          else []
        | none =>
          [make_event (if s.on_ground then "new_ground" else "new_airborne") s now]
      let r := procAux m now rest current'
      (evs ++ r.1, r.2)

/-- `AircraftMonitor.process_states` (monitor.py lines 65-100); `now` models
the single wall-clock timestamp taken at the start of the call. -/
def process_states (m : Monitor) (states : List PState) (now : String) :
    List Event × Monitor :=
  let p := procAux m now states []
  (p.1, { m with prev_states := p.2 })

/-- Events of a batch that concern one aircraft. -/
def eventsFor (a : String) (evs : List Event) : List Event :=
  evs.filter (fun e => e.icao24 == a)

/-- Per-state event contribution of `process_states` (same classification as
the loop body; proven below to generate exactly the emitted events). -/
def stateEvents (m : Monitor) (now : String) (s : PState) : List Event :=
  if matches_filter m s = false then []
  else if ceilingExcluded m s then []
  else
    match dlookup m.prev_states s.icao24 with
    | some was_ground =>
      if was_ground && !s.on_ground then [make_event "takeoff" s now]
      else if !was_ground && s.on_ground then [make_event "landing" s now]
      else []
    | none =>
      [make_event (if s.on_ground then "new_ground" else "new_airborne") s now]

/-- One step of the `current` accumulation of `process_states`. -/
def stepPrev (m : Monitor) (c : List (String × Bool)) (s : PState) : List (String × Bool) :=
  if passes m s then dinsert c s.icao24 s.on_ground else c

/-- Last state of a batch that survives the tests and carries icao24 `a`
(the one whose `on_ground` the next cycle will see). -/
def lastMatch (m : Monitor) (a : String) : List PState → Option PState
  | [] => none
  | t :: rest =>
    match lastMatch m a rest with
    | some u => some u
    | none => if passes m t && (t.icao24 == a) then some t else none

/-! ### src/glycol/api.py and src/glycol/auth.py — OpenSkyClient / OpenSkyAuth

Exceptions visible to `get_states` callers: `requests.RequestException`
(raised by `requests.get`, `raise_for_status`, and `resp.json`, and caught by
the handler at api.py line 109 and inside `authenticate` at auth.py line 45)
is not represented as a Lean exception at all since it is always absorbed;
exceptions of other classes escape and are modelled by `PyExn`. The escape
routes are: `int()` on a malformed header (ValueError, api.py lines 88 and
91), `data.get("states")` on a decoded non-object body (AttributeError,
api.py line 106), iterating a non-iterable states value and `len(raw)` on an
entry without a length (TypeError, api.py lines 107 and 35), positional
indexing of an object entry (KeyError), `.strip()` on a truthy non-string
callsign (AttributeError, api.py line 38), and `data["access_token"]` on a
decoded token payload without that key (KeyError, auth.py line 40) — the
last escapes `get_states` because the `get_headers()` call at api.py line 78
sits outside the try block and the 401-branch `authenticate()` at line 97
sits inside a handler that only matches RequestException. -/

/-- Exception classes that `except requests.RequestException` does not catch. -/
inductive PyExn
  | valueError
  | attributeError
  | typeError
  | keyError
deriving DecidableEq, Repr

/-- Decoded JSON values as produced by `resp.json()`. -/
inductive JVal
  | jnull
  | jbool (b : Bool)
  | jint (n : Int)
  | jnum (q : ℚ)
  | jstr (s : String)
  | jarr (l : List JVal)
  | jobj (fields : List (String × JVal))
deriving Repr

/-- Python truthiness of a decoded JSON value. -/
def truthyJ : JVal → Bool
  | .jnull => false
  | .jbool b => b
  | .jint n => decide (n ≠ 0)
  | .jnum q => decide (q ≠ 0)
  | .jstr s => decide (s ≠ "")
  | .jarr l => !l.isEmpty
  | .jobj fs => !fs.isEmpty

/-- Python `len(x)` on a decoded JSON value: strings, lists and dicts have a
length, everything else raises TypeError. -/
def pyLen : JVal → Except PyExn Nat
  | .jstr s => .ok s.length
  | .jarr l => .ok l.length
  | .jobj fs => .ok fs.length
  | _ => .error .typeError

/-- Python `x[i]` for a positional index already checked against `len(x)`:
list element, one-character string, KeyError for a dict (JSON object keys
are strings, never the integer `i`), TypeError otherwise. -/
def pyIndex : JVal → Nat → Except PyExn JVal
  | .jarr l, i => .ok (l.getD i .jnull)
  | .jstr s, i => .ok (.jstr (String.mk [s.data.getD i ' ']))
  | .jobj _, _ => .error .keyError
  | _, _ => .error .typeError

/-- Python `v.strip()`: defined on strings, AttributeError otherwise. -/
def pyStrip : JVal → Except PyExn JVal
  | .jstr s => .ok (.jstr s.trim)
  | _ => .error .attributeError

/-- Python `data.get(key)`: dict lookup with `None` default, AttributeError
when `data` is not a dict (api.py line 106 on a decoded non-object body). -/
def pyDictGet : JVal → String → Except PyExn JVal
  | .jobj fs, key => .ok ((dlookup fs key).getD .jnull)
  | _, _ => .error .attributeError

/-- Python `for s in x`: the elements of a list, the one-character strings
of a string, the keys of a dict, TypeError for anything else. -/
def pyIterList : JVal → Except PyExn (List JVal)
  | .jarr l => .ok l
  | .jstr s => .ok (s.data.map (fun ch => .jstr (String.mk [ch])))
  | .jobj fs => .ok (fs.map (fun p => .jstr p.1))
  | _ => .error .typeError

/-- Decimal value of a digit character. -/
def digitVal (ch : Char) : Option Nat :=
  if ch.isDigit then some (ch.toNat - Char.toNat '0') else none

/-- Left-to-right accumulation of a digit run. -/
def pyDigits : List Char → Nat → Option Nat
  | [], acc => some acc
  | ch :: rest, acc =>
    match digitVal ch with
    | some d => pyDigits rest (acc * 10 + d)
    | none => none

/-- Sign handling of Python `int` on a character list. -/
def pyIntChars : List Char → Option Int
  | [] => none
  | '-' :: rest => if rest = [] then none else (pyDigits rest 0).map (fun n => -(n : Int))
  | '+' :: rest => if rest = [] then none else (pyDigits rest 0).map (fun n => (n : Int))
  | l => (pyDigits l 0).map (fun n => (n : Int))

/-- Python `int(s)` on a header string (an optional sign followed by at
least one decimal digit): `some` when it parses, `none` when `int` would
raise ValueError. -/
def pyInt (s : String) : Option Int := pyIntChars s.data

/-- `_FIELDS` (api.py lines 9-28). -/
def FIELDS : List String :=
  ["icao24", "callsign", "origin_country", "time_position", "last_contact",
   "longitude", "latitude", "baro_altitude", "on_ground", "velocity",
   "true_track", "vertical_rate", "sensors", "geo_altitude", "squawk",
   "spi", "position_source", "category"]

/-- The field-building loop of `_parse_state` (api.py lines 34-35):
`d[name] = raw[i] if i < len(raw) else None` for each indexed field name. -/
def buildFields (raw : JVal) (n : Nat) :
    List (Nat × String) → Except PyExn (List (String × JVal))
  | [] => .ok []
  | p :: rest =>
    match (if p.1 < n then pyIndex raw p.1 else .ok .jnull) with
    | .error e => .error e
    | .ok v =>
      match buildFields raw n rest with
      | .error e => .error e
      | .ok d => .ok ((p.2, v) :: d)

/-- `_parse_state` (api.py lines 31-39) on one decoded states entry:
`len(raw)` (TypeError for an entry without a length), positional indexing
(KeyError for an object entry), then callsign whitespace normalization
(AttributeError for a truthy non-string callsign). `len(raw)` is constant
across the loop, so it is taken once. -/
def parse_state (raw : JVal) : Except PyExn (List (String × JVal)) :=
  match pyLen raw with
  | .error e => .error e
  | .ok n =>
    match buildFields raw n FIELDS.enum with
    | .error e => .error e
    | .ok d =>
      let cs := (dlookup d "callsign").getD .jnull
      if truthyJ cs then
        match pyStrip cs with
        | .error e => .error e
        | .ok v => .ok (dinsert d "callsign" v)
      else .ok d

/-- The list comprehension `[_parse_state(s) for s in states_raw]`: the first
exception aborts the whole comprehension. -/
def parseStates : List JVal → Except PyExn (List (List (String × JVal)))
  | [] => .ok []
  | r :: rest =>
    match parse_state r with
    | .error e => .error e
    | .ok d =>
      match parseStates rest with
      | .error e => .error e
      | .ok l => .ok (d :: l)

/-- Outcome of one `requests.post` to the token endpoint inside
`OpenSkyAuth.authenticate`:
`fail` is any `RequestException` (network error, error status via
`raise_for_status`, undecodable body) — caught at auth.py line 45, clearing
the token; `raises e` is a 2xx response whose decoded payload makes
`data["access_token"]` at auth.py line 40 raise outside `RequestException`
(KeyError when the key is absent from the object, TypeError when the payload
is not an object), which happens before the token assignment and escapes;
`ok tok ein` is a well-formed grant (string `access_token`, numeric
`expires_in` defaulted to 1800). -/
inductive AuthResult
  | fail
  | raises (e : PyExn)
  | ok (tok : String) (expires_in : ℚ)

/-- Mutable state of an `OpenSkyAuth` instance (`_token`, `_expires_at`). -/
structure AuthState where
  token : Option String
  expires_at : ℚ
deriving DecidableEq, Repr

/-- One HTTP response as observed by `get_states` (header values kept as raw
strings; `body = none` models a payload on which `resp.json()` raises — a
`JSONDecodeError`, which is a `RequestException` and is caught — and
`body = some data` a decodable payload with decoded value `data`). -/
structure HttpResponse where
  status : Nat
  rateLimitRemaining : Option String
  retryAfter : Option String
  body : Option JVal
deriving Repr

/-- Outcome of one `requests.get` on the states URL: a raised
`RequestException` or a response. -/
inductive ReqResult
  | netError
  | success (r : HttpResponse)
deriving Repr

/-- The environment: outcome of the i-th token request and of the i-th
states request issued by this client. -/
structure Env where
  authResp : Nat → AuthResult
  httpResp : Nat → ReqResult

/-- Observable interaction counters and log: how many token requests, how
many states requests (with the headers each carried), and how many times the
forced re-authentication branch of the 401 handler ran. -/
structure Trace where
  authCalls : Nat
  reqCalls : Nat
  forcedReauths : Nat
  reqHeaders : List (List (String × String))
deriving DecidableEq, Repr

/-- Mutable state of an `OpenSkyClient` instance
(`rate_limit_remaining`, `_backoff_until`). -/
structure ClientState where
  rate_limit_remaining : Option Int
  backoff_until : ℚ
deriving DecidableEq, Repr

/-- `OpenSkyAuth.authenticate` (auth.py lines 26-47): on a caught
`RequestException` the token is cleared and False returned; on an escaping
payload exception the token keeps its old value (the assignment at line 40
never ran); on success `expires_at = now + expires_in - 60`. -/
def authenticate (env : Env) (now : ℚ) (a : AuthState) (tr : Trace) :
    Except PyExn Bool × AuthState × Trace :=
  match env.authResp tr.authCalls with
  | .fail => (.ok false, { a with token := none }, { tr with authCalls := tr.authCalls + 1 })
  | .raises e => (.error e, a, { tr with authCalls := tr.authCalls + 1 })
  | .ok tok ein =>
    (.ok true, { token := some tok, expires_at := now + ein - 60 },
     { tr with authCalls := tr.authCalls + 1 })

/-- `OpenSkyAuth.is_expired` (auth.py lines 53-55). -/
def is_expired (now : ℚ) (a : AuthState) : Bool := decide (a.expires_at ≤ now)

/-- `OpenSkyAuth.ensure_valid` (auth.py lines 57-61). -/
def ensure_valid (env : Env) (now : ℚ) (a : AuthState) (tr : Trace) :
    Except PyExn Bool × AuthState × Trace :=
  if a.token = none || is_expired now a then authenticate env now a tr
  else (.ok true, a, tr)

/-- `OpenSkyAuth.get_headers` (auth.py lines 63-68); an exception escaping
`ensure_valid` propagates. -/
def get_headers (env : Env) (now : ℚ) (a : AuthState) (tr : Trace) :
    Except PyExn (List (String × String)) × AuthState × Trace :=
  let r := ensure_valid env now a tr
  match r.1 with
  | .error e => (.error e, r.2.1, r.2.2)
  | .ok _ =>
    match r.2.1.token with
    | some t => (.ok [("Authorization", "Bearer " ++ t)], r.2.1, r.2.2)
    | none => (.ok [], r.2.1, r.2.2)

/-- One `requests.get(STATES_URL, ...)`: consumes the next environment
outcome and records the request with its headers. -/
def doRequest (env : Env) (headers : List (String × String)) (tr : Trace) :
    ReqResult × Trace :=
  (env.httpResp tr.reqCalls,
   { tr with reqCalls := tr.reqCalls + 1, reqHeaders := tr.reqHeaders ++ [headers] })

/-- Result of one `get_states` call: the returned value (or escaped
exception) plus the post-call client, auth and interaction state. -/
structure GSOut where
  result : Except PyExn (List (List (String × JVal)))
  client : ClientState
  auth : AuthState
  tr : Trace

/-- Body processing of api.py lines 104-107: a payload on which
`resp.json()` raises (`body = none`, a `JSONDecodeError`, which is a
`RequestException`) is caught by the handler and yields `[]`; on a decoded
value, `data.get("states")` (AttributeError escapes on a non-object body),
`or []`, iteration of the states value (TypeError escapes on a truthy
non-iterable), then `_parse_state` entry by entry. -/
def statesResult (body : Option JVal) : Except PyExn (List (List (String × JVal))) :=
  match body with
  | none => .ok []
  | some data =>
    match pyDictGet data "states" with
    | .error e => .error e
    | .ok sv =>
      match pyIterList (if truthyJ sv then sv else .jarr []) with
      | .error e => .error e
      | .ok states_raw => parseStates states_raw

/-- Tail of `get_states` after the 429/401 dispatch (api.py lines 103-107):
`raise_for_status` (HTTPError for 400-599, caught), then the body processing
of `statesResult`. -/
def finishResponse (c : ClientState) (a : AuthState) (tr : Trace)
    (resp : HttpResponse) : GSOut :=
  if 400 ≤ resp.status ∧ resp.status < 600 then ⟨.ok [], c, a, tr⟩
  else
    match statesResult resp.body with
    | .error e => ⟨.error e, c, a, tr⟩
    | .ok l => ⟨.ok l, c, a, tr⟩

/-- Middle of `get_states` after the rate-limit header was recorded
(api.py lines 90-107): the 429 branch sets the backoff deadline from
`int(resp.headers.get("Retry-After", 10))`; the 401 branch re-authenticates
once (a payload exception escapes the surrounding try, whose handler only
matches `RequestException`) and reissues the request with fresh headers;
everything else falls through to `finishResponse`. -/
def getStatesAfterRl (env : Env) (now : ℚ) (c : ClientState) (a : AuthState)
    (tr : Trace) (resp : HttpResponse) : GSOut :=
  if resp.status = 429 then
    match resp.retryAfter with
    | some s =>
      match pyInt s with
      | none => ⟨.error .valueError, c, a, tr⟩
      | some ra => ⟨.ok [], { c with backoff_until := now + ra }, a, tr⟩
    | none => ⟨.ok [], { c with backoff_until := now + 10 }, a, tr⟩
  else if resp.status = 401 then
    let ar := authenticate env now a { tr with forcedReauths := tr.forcedReauths + 1 }
    match ar.1 with
    | .error e => ⟨.error e, c, ar.2.1, ar.2.2⟩
    | .ok _ =>
      let h2 := get_headers env now ar.2.1 ar.2.2
      match h2.1 with
      | .error e => ⟨.error e, c, h2.2.1, h2.2.2⟩
      | .ok headers2 =>
        let r2 := doRequest env headers2 h2.2.2
        match r2.1 with
        | .netError => ⟨.ok [], c, h2.2.1, r2.2⟩
        | .success resp2 => finishResponse c h2.2.1 r2.2 resp2
  else finishResponse c a tr resp

/-- `OpenSkyClient.get_states` (api.py lines 50-110); `now` models the
wall-clock reads of the call. Respects the backoff window, attaches headers
— the `get_headers()` call at line 78 sits outside the try block, so an
exception escaping `authenticate` propagates directly — issues the request,
records the `X-Rate-Limit-Remaining` header via `int(rl)` (ValueError
escapes for a non-integer value), then dispatches on the status code. -/
def get_states (env : Env) (now : ℚ) (c : ClientState) (a : AuthState)
    (tr : Trace) : GSOut :=
  if now < c.backoff_until then ⟨.ok [], c, a, tr⟩
  else
    let h1 := get_headers env now a tr
    match h1.1 with
    | .error e => ⟨.error e, c, h1.2.1, h1.2.2⟩
    | .ok headers =>
      let r1 := doRequest env headers h1.2.2
      match r1.1 with
      | .netError => ⟨.ok [], c, h1.2.1, r1.2⟩
      | .success resp =>
        match resp.rateLimitRemaining with
        | some rl =>
          match pyInt rl with
          | none => ⟨.error .valueError, c, h1.2.1, r1.2⟩
          | some n =>
            getStatesAfterRl env now { c with rate_limit_remaining := some n }
              h1.2.1 r1.2 resp
        | none => getStatesAfterRl env now c h1.2.1 r1.2 resp

/-- Value `int(resp.headers.get("Retry-After", 10))` would produce, `none`
when it would raise. -/
def retryAfterVal : Option String → Option Int
  | none => some 10
  | some s => pyInt s

/-- An integer header is absent or parses with `int()`. -/
def headerIntOk : Option String → Bool
  | none => true
  | some s => (pyInt s).isSome

/-- The body is undecodable (caught) or processes without an escaping
exception. -/
def statesBodyOk (body : Option JVal) : Bool :=
  match statesResult body with
  | .ok _ => true
  | .error _ => false

/-- A response whose processing raises nothing outside `RequestException`. -/
def respBenign (r : HttpResponse) : Bool :=
  headerIntOk r.rateLimitRemaining && headerIntOk r.retryAfter && statesBodyOk r.body

/-- A request outcome whose processing raises nothing outside
`RequestException`. -/
def outcomeBenign : ReqResult → Bool
  | .netError => true
  | .success r => respBenign r

/-- A token-endpoint outcome whose processing inside `authenticate` raises
nothing outside `RequestException`. -/
def authOutcomeOk : AuthResult → Bool
  | .raises _ => false
  | _ => true

/-! ### src/glycol/web.py — GlycolWebApp._broadcast_event (BroadcastHub) -/

/-- One SSE subscriber: its bounded queue (`queue.Queue(maxsize=cap)`)
plus an identity. -/
structure Subscriber (α : Type) where
  id : Nat
  cap : Nat
  buf : List α
deriving DecidableEq, Repr

/-- `GlycolWebApp._broadcast_event` (web.py lines 71-89): one pass of
non-blocking `put_nowait` over the subscriber queues in order, collecting
the queues that raised `queue.Full`, which are removed after the loop. -/
def broadcast {α : Type} (qs : List (Subscriber α)) (m : α) : List (Subscriber α) :=
  let stepped := qs.map (fun q =>
    if q.buf.length < q.cap then ({ q with buf := q.buf ++ [m] }, false)
    else (q, true))
  (stepped.filter (fun p => !p.2)).map Prod.fst

/-! ### Inter-cycle sleep of the poll loops (web.py line 154, ui.py line 533) -/

/-- The two sleep primitives the poll loops use: `time.sleep(d)` and
`threading.Event.wait(timeout=d)`. -/
inductive SleepCall
  | timeSleep (d : ℚ)
  | eventWait (d : ℚ)
deriving DecidableEq, Repr

/-- Time actually spent in the sleep when the stop event is set `t` seconds
after the sleep starts (`none` = never set during the sleep): `time.sleep`
always runs its full duration; `Event.wait` returns as soon as the event is
set. -/
def sleepDuration : SleepCall → Option ℚ → ℚ
  | .timeSleep d, _ => d
  | .eventWait d, none => d
  | .eventWait d, some t => min d t

/-- The inter-cycle sleep of `GlycolWebApp._poll_loop`
(web.py line 154: `time.sleep(self.poll_interval)`). -/
def webPollSleep (interval : ℚ) : SleepCall := .timeSleep interval

/-- The inter-cycle sleep of the desktop `GlycolApp._poll_loop`
(ui.py line 533: `self._stop_event.wait(timeout=self.poll_var.get())`). -/
def uiPollSleep (interval : ℚ) : SleepCall := .eventWait interval

/-! ### Concrete instances used to evaluate the development -/

/-- A state vector carrying only the fields the monitor branches on. -/
def pstate (icao : String) (g : Bool) (alt : Option ℚ) : PState :=
  { icao24 := icao, callsign := none, baro_altitude := alt, on_ground := g,
    latitude := none, longitude := none, velocity := none, true_track := none,
    vertical_rate := none, squawk := none, category := none, origin_country := none }

/-- Fresh interaction trace. -/
def trace0 : Trace := ⟨0, 0, 0, []⟩

/-- Fresh client state. -/
def client0 : ClientState := ⟨none, 0⟩

/-- Unauthenticated auth state. -/
def auth0 : AuthState := ⟨none, 0⟩

/-- Auth state holding a token valid until t = 1000. -/
def authValid : AuthState := ⟨some "stale", 1000⟩

/-- Environment whose states endpoint answers 200 with a non-integer
X-Rate-Limit-Remaining header. -/
def envBadHeader : Env :=
  ⟨fun _ => .ok "tok" 1800,
   fun _ => .success ⟨200, some "many", none, some (.jobj [])⟩⟩

/-- Environment whose states endpoint answers 200 with a decodable body
that is a JSON array, not an object. -/
def envArrayBody : Env :=
  ⟨fun _ => .ok "tok" 1800, fun _ => .success ⟨200, none, none, some (.jarr [])⟩⟩

/-- Environment whose states endpoint answers 200 with a states entry that
is a bare number instead of a state vector. -/
def envBadEntry : Env :=
  ⟨fun _ => .ok "tok" 1800,
   fun _ => .success ⟨200, none, none, some (.jobj [("states", .jarr [.jint 5])])⟩⟩

/-- Environment whose token endpoint answers 200 with a payload lacking
access_token. -/
def envBadToken : Env := ⟨fun _ => .raises .keyError, fun _ => .netError⟩

/-- A 429 response with Retry-After 5. -/
def resp429 : HttpResponse := ⟨429, some "3", some "5", some (.jobj [])⟩

/-- Environment whose states endpoint always answers `resp429`. -/
def envRateLimited : Env := ⟨fun _ => .ok "tok" 1800, fun _ => .success resp429⟩

/-- A bare 401 response. -/
def resp401 : HttpResponse := ⟨401, none, none, none⟩

/-- A bare 500 response. -/
def resp500 : HttpResponse := ⟨500, none, none, none⟩

/-- Environment answering 401 first and 500 on the retry. -/
def envAuthRetry : Env :=
  ⟨fun _ => .ok "fresh" 1800, fun i => if i = 0 then .success resp401 else .success resp500⟩

/-- Environment answering 200 with a well-formed payload of one state. -/
def envOk : Env :=
  ⟨fun _ => .ok "tok" 1800,
   fun _ => .success
     ⟨200, some "42", none, some (.jobj [("states", .jarr [.jarr [.jstr "abc123"]])])⟩⟩

/-- Monitor with no filter and the default 1500 ft ceiling. -/
def mW : Monitor := mkMonitor none none (some 1500) []

/-- Monitor carrying one tracked aircraft. -/
def mPrev : Monitor :=
  { filter_mode := none, filter_values := [], ceiling_m := some (1500 * FEET_TO_METERS),
    icao_to_type := [], prev_states := [("a1b2c3", true)] }

/-- Aircraft a1b2c3 on the ground at 10 m. -/
def sGround : PState := pstate "a1b2c3" true (some 10)

/-- Aircraft a1b2c3 airborne at 100 m. -/
def sAir : PState := pstate "a1b2c3" false (some 100)

/-- Aircraft high01 at 5000 m, above the default ceiling. -/
def sHigh : PState := pstate "high01" false (some 5000)

/-- Aircraft c3d4e5 with no reported altitude. -/
def sNoAlt : PState := pstate "c3d4e5" false none

/-- Subscriber with room in its queue. -/
def subOpen : Subscriber Nat := ⟨1, 2, []⟩

/-- Subscriber whose queue is full (capacity 0). -/
def subFull : Subscriber Nat := ⟨2, 0, []⟩

/-! ## Lemmas

The rational-arithmetic primitives are unsealed so that concrete instances
of the development evaluate by `decide`. -/

unseal Rat.mul Rat.inv Rat.add Rat.sub Rat.ofScientific

theorem dlookup_dinsert_self {β : Type} (l : List (String × β)) (k : String) (v : β) :
    dlookup (dinsert l k v) k = some v := by
  induction l with
  | nil => simp [dinsert, dlookup]
  | cons p rest ih =>
    by_cases h : p.1 = k
    · simp [dinsert, dlookup, h]
    · simp [dinsert, dlookup, h, ih]

theorem dlookup_dinsert_ne {β : Type} (l : List (String × β)) (k k' : String) (v : β)
    (h : k ≠ k') : dlookup (dinsert l k v) k' = dlookup l k' := by
  induction l with
  | nil => simp [dinsert, dlookup, h]
  | cons p rest ih =>
    by_cases hp : p.1 = k
    · simp [dinsert, dlookup, hp, h]
    · by_cases hp' : p.1 = k'
      · simp [dinsert, dlookup, hp, hp', Ne.symm h]
      · simp [dinsert, dlookup, hp, hp', ih]

theorem procAux_fst (m : Monitor) (now : String) (states : List PState) :
    ∀ current, (procAux m now states current).1 = (states.map (stateEvents m now)).join := by
  induction states with
  | nil => intro current; rfl
  | cons s rest ih =>
    intro current
    by_cases h1 : matches_filter m s = false
    · simp [procAux, stateEvents, h1, ih]
    · by_cases h2 : ceilingExcluded m s
      · simp [procAux, stateEvents, h1, h2, ih]
      · simp [procAux, stateEvents, h1, h2, ih]

theorem procAux_snd (m : Monitor) (now : String) (states : List PState) :
    ∀ current, (procAux m now states current).2 = states.foldl (stepPrev m) current := by
  induction states with
  | nil => intro current; rfl
  | cons s rest ih =>
    intro current
    by_cases h1 : matches_filter m s = false
    · simp [procAux, stepPrev, passes, h1, ih]
    · by_cases h2 : ceilingExcluded m s
      · simp [procAux, stepPrev, passes, h1, h2, ih]
      · simp [procAux, stepPrev, passes, h1, h2, ih]

theorem eventsFor_append (a : String) (l₁ l₂ : List Event) :
    eventsFor a (l₁ ++ l₂) = eventsFor a l₁ ++ eventsFor a l₂ := by
  simp [eventsFor, List.filter_append]

theorem stateEvents_skip (m : Monitor) (now : String) (s : PState)
    (h : passes m s = false) : stateEvents m now s = [] := by
  rw [passes, Bool.and_eq_false_iff] at h
  rcases h with h | h
  · simp [stateEvents, h]
  · have : ceilingExcluded m s = true := by
      cases hc : ceilingExcluded m s <;> simp [hc] at h ⊢
    simp [stateEvents, this]

theorem eventsFor_stateEvents (m : Monitor) (now : String) (s : PState) (a : String) :
    eventsFor a (stateEvents m now s) =
      if s.icao24 = a then stateEvents m now s else [] := by
  by_cases h : s.icao24 = a
  · simp only [h, if_pos]
    unfold stateEvents
    repeat' split
    all_goals simp_all [eventsFor, make_event, h]
  · simp only [h, if_neg, if_false]
    unfold stateEvents
    repeat' split
    all_goals simp_all [eventsFor, make_event, h]

theorem eventsFor_stateEvents_not_pred (m : Monitor) (now : String) (a : String)
    (t : PState) (h : (passes m t && (t.icao24 == a)) = false) :
    eventsFor a (stateEvents m now t) = [] := by
  rw [Bool.and_eq_false_iff] at h
  rcases h with h | h
  · rw [stateEvents_skip m now t h]; rfl
  · have hne : t.icao24 ≠ a := by simpa using h
    rw [eventsFor_stateEvents, if_neg hne]

theorem eventsFor_join_nil (m : Monitor) (now : String) (a : String) (l : List PState)
    (h : ∀ u ∈ l, (passes m u && (u.icao24 == a)) = false) :
    eventsFor a ((l.map (stateEvents m now)).join) = [] := by
  induction l with
  | nil => rfl
  | cons u rest ih =>
    simp only [List.map_cons, List.join_cons, eventsFor_append]
    rw [eventsFor_stateEvents_not_pred m now a u (h u (by simp)),
      ih (fun v hv => h v (by simp [hv]))]
    rfl

theorem eventsFor_process_states (m : Monitor) (states : List PState) (now : String)
    (a : String) (s : PState)
    (h : states.filter (fun t => passes m t && (t.icao24 == a)) = [s]) :
    eventsFor a (process_states m states now).1 = stateEvents m now s := by
  have hfst : (process_states m states now).1 = (states.map (stateEvents m now)).join := by
    simpa [process_states] using procAux_fst m now states []
  rw [hfst]; clear hfst
  induction states with
  | nil => simp at h
  | cons t rest ih =>
    by_cases hp : (passes m t && (t.icao24 == a)) = true
    · rw [List.filter_cons, if_pos hp] at h
      have hts : t = s := (List.cons_eq_cons.mp h).1
      have hrest : rest.filter (fun t => passes m t && (t.icao24 == a)) = [] :=
        (List.cons_eq_cons.mp h).2
      have hia : t.icao24 = a := by
        have := (Bool.and_eq_true _ _).mp hp
        simpa using this.2
      simp only [List.map_cons, List.join_cons, eventsFor_append]
      rw [eventsFor_join_nil m now a rest
          (fun u hu => by simpa using List.filter_eq_nil.mp hrest u hu),
        eventsFor_stateEvents, if_pos hia, hts, List.append_nil]
    · have hpf : (passes m t && (t.icao24 == a)) = false := by
        cases hx : (passes m t && (t.icao24 == a)) <;> simp_all
      rw [List.filter_cons, if_neg (by simp [hpf])] at h
      simp only [List.map_cons, List.join_cons, eventsFor_append]
      rw [eventsFor_stateEvents_not_pred m now a t hpf, ih h]
      rfl

theorem dlookup_foldl_stepPrev (m : Monitor) (a : String) (l : List PState) :
    ∀ c, dlookup (l.foldl (stepPrev m) c) a =
      match lastMatch m a l with
      | some u => some u.on_ground
      | none => dlookup c a := by
  induction l with
  | nil => intro c; rfl
  | cons t rest ih =>
    intro c
    simp only [List.foldl_cons]
    rw [ih (stepPrev m c t)]
    cases hl : lastMatch m a rest with
    | some u => simp [lastMatch, hl]
    | none =>
      simp only [lastMatch, hl]
      by_cases hp : passes m t
      · by_cases hi : t.icao24 = a
        · simp [stepPrev, hp, hi, dlookup_dinsert_self]
        · simp [stepPrev, hp, hi, dlookup_dinsert_ne c t.icao24 a t.on_ground hi]
      · simp [stepPrev, hp]

theorem lastMatch_eq_none (m : Monitor) (a : String) (l : List PState) :
    lastMatch m a l = none ↔ ∀ u ∈ l, (passes m u && (u.icao24 == a)) = false := by
  induction l with
  | nil => simp [lastMatch]
  | cons t rest ih =>
    constructor
    · intro h u hu
      rcases List.mem_cons.mp hu with rfl | hu
      · unfold lastMatch at h
        cases hl : lastMatch m a rest with
        | some v => rw [hl] at h; simp at h
        | none =>
          rw [hl] at h
          by_cases hp : (passes m u && (u.icao24 == a)) = true
          · rw [if_pos hp] at h; simp at h
          · cases hx : (passes m u && (u.icao24 == a)) <;> simp_all
      · unfold lastMatch at h
        cases hl : lastMatch m a rest with
        | some v => rw [hl] at h; simp at h
        | none => exact (ih.mp hl) u hu
    · intro h
      have hrest : lastMatch m a rest = none := ih.mpr (fun u hu => h u (by simp [hu]))
      unfold lastMatch
      rw [hrest]
      simp [h t (by simp)]

theorem lastMatch_mem (m : Monitor) (a : String) (l : List PState) (u : PState)
    (h : lastMatch m a l = some u) :
    u ∈ l ∧ passes m u = true ∧ u.icao24 = a := by
  induction l with
  | nil => simp [lastMatch] at h
  | cons t rest ih =>
    unfold lastMatch at h
    cases hl : lastMatch m a rest with
    | some v =>
      rw [hl] at h
      obtain rfl : v = u := by simpa using h
      obtain ⟨h1, h2, h3⟩ := ih hl
      exact ⟨by simp [h1], h2, h3⟩
    | none =>
      rw [hl] at h
      by_cases hp : (passes m t && (t.icao24 == a)) = true
      · rw [if_pos hp] at h
        obtain rfl : t = u := by simpa using h
        have := (Bool.and_eq_true _ _).mp hp
        exact ⟨by simp, this.1, by simpa using this.2⟩
      · rw [if_neg hp] at h; simp at h

theorem lastMatch_of_filter_singleton (m : Monitor) (a : String) (l : List PState)
    (s : PState) (h : l.filter (fun t => passes m t && (t.icao24 == a)) = [s]) :
    lastMatch m a l = some s := by
  induction l with
  | nil => simp at h
  | cons t rest ih =>
    by_cases hp : (passes m t && (t.icao24 == a)) = true
    · rw [List.filter_cons, if_pos hp] at h
      have hts : t = s := (List.cons_eq_cons.mp h).1
      have hrest : rest.filter (fun t => passes m t && (t.icao24 == a)) = [] :=
        (List.cons_eq_cons.mp h).2
      subst hts
      unfold lastMatch
      rw [(lastMatch_eq_none m a rest).mpr
        (fun u hu => by simpa using List.filter_eq_nil.mp hrest u hu)]
      simp [hp]
    · rw [List.filter_cons, if_neg hp] at h
      unfold lastMatch
      rw [ih h]

theorem process_states_prev (m : Monitor) (states : List PState) (now : String)
    (a : String) :
    dlookup (process_states m states now).2.prev_states a =
      match lastMatch m a states with
      | some u => some u.on_ground
      | none => dlookup ([] : List (String × Bool)) a := by
  have : (process_states m states now).2.prev_states = states.foldl (stepPrev m) [] := by
    simpa [process_states] using procAux_snd m now states []
  rw [this, dlookup_foldl_stepPrev]

theorem pred_of_filter_singleton (m : Monitor) (a : String) (l : List PState)
    (s : PState) (h : l.filter (fun t => passes m t && (t.icao24 == a)) = [s]) :
    s ∈ l ∧ passes m s = true ∧ s.icao24 = a := by
  have hs : s ∈ l.filter (fun t => passes m t && (t.icao24 == a)) := by
    rw [h]; simp
  have := List.mem_filter.mp hs
  have hp := (Bool.and_eq_true _ _).mp this.2
  exact ⟨this.1, hp.1, by simpa using hp.2⟩

theorem passes_iff (m : Monitor) (s : PState) :
    passes m s = true ↔ matches_filter m s = true ∧ ceilingExcluded m s = false := by
  constructor
  · intro h
    have := (Bool.and_eq_true _ _).mp h
    exact ⟨this.1, by simpa using this.2⟩
  · intro ⟨h1, h2⟩
    simp [passes, h1, h2]

theorem procAux_filter_ceiling (m : Monitor) (now : String) (states : List PState) :
    ∀ current, procAux m now (states.filter (fun s => !ceilingExcluded m s)) current =
      procAux m now states current := by
  induction states with
  | nil => intro current; rfl
  | cons t rest ih =>
    intro current
    by_cases h2 : ceilingExcluded m t
    · rw [List.filter_cons, if_neg (by simp [h2])]
      by_cases h1 : matches_filter m t = false
      · simp [procAux, h1, ih]
      · simp [procAux, h1, h2, ih]
    · rw [List.filter_cons, if_pos (by simp [h2])]
      by_cases h1 : matches_filter m t = false
      · simp [procAux, h1, ih]
      · simp [procAux, h1, h2, ih]

theorem authenticate_trace (env : Env) (now : ℚ) (a : AuthState) (tr : Trace) :
    (authenticate env now a tr).2.2.reqCalls = tr.reqCalls
    ∧ (authenticate env now a tr).2.2.reqHeaders = tr.reqHeaders
    ∧ (authenticate env now a tr).2.2.forcedReauths = tr.forcedReauths := by
  unfold authenticate
  split <;> simp

theorem authenticate_ok (env : Env) (now : ℚ) (a : AuthState) (tr : Trace)
    (hben : authOutcomeOk (env.authResp tr.authCalls) = true) :
    ∃ b, (authenticate env now a tr).1 = .ok b := by
  unfold authenticate
  cases henv : env.authResp tr.authCalls with
  | fail => exact ⟨false, rfl⟩
  | raises e => rw [henv] at hben; simp [authOutcomeOk] at hben
  | ok tok ein => exact ⟨true, rfl⟩

theorem ensure_valid_trace (env : Env) (now : ℚ) (a : AuthState) (tr : Trace) :
    (ensure_valid env now a tr).2.2.reqCalls = tr.reqCalls
    ∧ (ensure_valid env now a tr).2.2.reqHeaders = tr.reqHeaders
    ∧ (ensure_valid env now a tr).2.2.forcedReauths = tr.forcedReauths := by
  unfold ensure_valid
  split
  · exact authenticate_trace env now a tr
  · exact ⟨rfl, rfl, rfl⟩

theorem ensure_valid_ok (env : Env) (now : ℚ) (a : AuthState) (tr : Trace)
    (hben : ∀ k, authOutcomeOk (env.authResp k) = true) :
    ∃ b, (ensure_valid env now a tr).1 = .ok b := by
  unfold ensure_valid
  split
  · exact authenticate_ok env now a tr (hben tr.authCalls)
  · exact ⟨true, rfl⟩

theorem get_headers_trace (env : Env) (now : ℚ) (a : AuthState) (tr : Trace) :
    (get_headers env now a tr).2.2.reqCalls = tr.reqCalls
    ∧ (get_headers env now a tr).2.2.reqHeaders = tr.reqHeaders
    ∧ (get_headers env now a tr).2.2.forcedReauths = tr.forcedReauths := by
  have h := ensure_valid_trace env now a tr
  simp only [get_headers]
  split
  · exact h
  · split <;> exact h

theorem get_headers_ok (env : Env) (now : ℚ) (a : AuthState) (tr : Trace)
    (hben : ∀ k, authOutcomeOk (env.authResp k) = true) :
    ∃ hdrs, (get_headers env now a tr).1 = .ok hdrs := by
  obtain ⟨b, hb⟩ := ensure_valid_ok env now a tr hben
  simp only [get_headers, hb]
  split <;> exact ⟨_, rfl⟩

theorem get_headers_valid (env : Env) (now : ℚ) (a : AuthState) (tr : Trace)
    (tok : String) (htok : a.token = some tok) (hexp : is_expired now a = false) :
    get_headers env now a tr =
      (.ok [("Authorization", "Bearer " ++ tok)], a, tr) := by
  simp [get_headers, ensure_valid, htok, hexp]

theorem finishResponse_state (c : ClientState) (a : AuthState) (tr : Trace)
    (resp : HttpResponse) :
    (finishResponse c a tr resp).client = c ∧ (finishResponse c a tr resp).auth = a
    ∧ (finishResponse c a tr resp).tr = tr := by
  unfold finishResponse
  repeat' split
  all_goals exact ⟨rfl, rfl, rfl⟩

theorem finishResponse_tr (c : ClientState) (a : AuthState) (tr : Trace)
    (resp : HttpResponse) : (finishResponse c a tr resp).tr = tr :=
  (finishResponse_state c a tr resp).2.2

theorem finishResponse_httpError (c : ClientState) (a : AuthState) (tr : Trace)
    (resp : HttpResponse) (h4 : 400 ≤ resp.status) (h6 : resp.status < 600) :
    (finishResponse c a tr resp).result = .ok [] := by
  unfold finishResponse
  rw [if_pos ⟨h4, h6⟩]

theorem statesResult_ok (body : Option JVal) (h : statesBodyOk body = true) :
    ∃ l, statesResult body = .ok l := by
  unfold statesBodyOk at h
  cases hr : statesResult body with
  | error e => rw [hr] at h; simp at h
  | ok l => exact ⟨l, rfl⟩

theorem finishResponse_ok (c : ClientState) (a : AuthState) (tr : Trace)
    (resp : HttpResponse) (h : statesBodyOk resp.body = true) :
    ∃ l, (finishResponse c a tr resp).result = .ok l := by
  unfold finishResponse
  split
  · exact ⟨[], rfl⟩
  · obtain ⟨l, hl⟩ := statesResult_ok resp.body h
    rw [hl]
    exact ⟨l, rfl⟩

theorem get_states_success_shape (env : Env) (now : ℚ) (c : ClientState)
    (a : AuthState) (tr : Trace) (resp : HttpResponse)
    (hdrs : List (String × String))
    (hb : ¬ now < c.backoff_until)
    (hH : (get_headers env now a tr).1 = .ok hdrs)
    (hr : env.httpResp tr.reqCalls = .success resp) :
    get_states env now c a tr =
      match resp.rateLimitRemaining with
      | some rl =>
        match pyInt rl with
        | none => ⟨.error .valueError, c, (get_headers env now a tr).2.1,
            (doRequest env hdrs (get_headers env now a tr).2.2).2⟩
        | some n =>
          getStatesAfterRl env now { c with rate_limit_remaining := some n }
            (get_headers env now a tr).2.1
            (doRequest env hdrs (get_headers env now a tr).2.2).2 resp
      | none =>
        getStatesAfterRl env now c (get_headers env now a tr).2.1
          (doRequest env hdrs (get_headers env now a tr).2.2).2 resp := by
  rcases hgh : get_headers env now a tr with ⟨ex, a1, tr1⟩
  rw [hgh] at hH
  obtain rfl : ex = .ok hdrs := by simpa using hH
  have hrc : tr1.reqCalls = tr.reqCalls := by
    have h := (get_headers_trace env now a tr).1
    rw [hgh] at h
    simpa using h
  have hd : doRequest env hdrs tr1 =
      (.success resp,
       ⟨tr1.authCalls, tr.reqCalls + 1, tr1.forcedReauths, tr1.reqHeaders ++ [hdrs]⟩) := by
    simp only [doRequest]
    rw [hrc, hr]
  simp only [get_states, hgh, hd]
  rw [if_neg hb]

theorem get_states_netError (env : Env) (now : ℚ) (c : ClientState)
    (a : AuthState) (tr : Trace) (hdrs : List (String × String))
    (hb : ¬ now < c.backoff_until)
    (hH : (get_headers env now a tr).1 = .ok hdrs)
    (hr : env.httpResp tr.reqCalls = .netError) :
    (get_states env now c a tr).result = .ok []
    ∧ (get_states env now c a tr).tr.reqCalls = tr.reqCalls + 1 := by
  rcases hgh : get_headers env now a tr with ⟨ex, a1, tr1⟩
  rw [hgh] at hH
  obtain rfl : ex = .ok hdrs := by simpa using hH
  have hrc : tr1.reqCalls = tr.reqCalls := by
    have h := (get_headers_trace env now a tr).1
    rw [hgh] at h
    simpa using h
  have hd : doRequest env hdrs tr1 =
      (.netError,
       ⟨tr1.authCalls, tr.reqCalls + 1, tr1.forcedReauths, tr1.reqHeaders ++ [hdrs]⟩) := by
    simp only [doRequest]
    rw [hrc, hr]
  simp only [get_states, hgh, hd]
  rw [if_neg hb]
  exact ⟨rfl, rfl⟩

theorem getStatesAfterRl_429 (env : Env) (now : ℚ) (c : ClientState) (a : AuthState)
    (tr : Trace) (resp : HttpResponse) (ra : Int)
    (h429 : resp.status = 429) (hra : retryAfterVal resp.retryAfter = some ra) :
    getStatesAfterRl env now c a tr resp =
      ⟨.ok [], { c with backoff_until := now + ra }, a, tr⟩ := by
  unfold getStatesAfterRl
  rw [if_pos h429]
  cases hx : resp.retryAfter with
  | none =>
    simp only [retryAfterVal, hx] at hra
    obtain rfl : (10 : Int) = ra := by simpa using hra
    simp
  | some s =>
    simp only [retryAfterVal, hx] at hra
    simp [hra]

theorem getStatesAfterRl_401 (env : Env) (now : ℚ) (c : ClientState) (a : AuthState)
    (tr : Trace) (resp : HttpResponse) (tok : String) (ein : ℚ)
    (h401 : resp.status = 401)
    (hauth : env.authResp tr.authCalls = .ok tok ein)
    (hein : 60 < ein) :
    getStatesAfterRl env now c a tr resp =
      match env.httpResp tr.reqCalls with
      | .netError => ⟨.ok [], c, ⟨some tok, now + ein - 60⟩,
          ⟨tr.authCalls + 1, tr.reqCalls + 1, tr.forcedReauths + 1,
           tr.reqHeaders ++ [[("Authorization", "Bearer " ++ tok)]]⟩⟩
      | .success resp2 => finishResponse c ⟨some tok, now + ein - 60⟩
          ⟨tr.authCalls + 1, tr.reqCalls + 1, tr.forcedReauths + 1,
           tr.reqHeaders ++ [[("Authorization", "Bearer " ++ tok)]]⟩ resp2 := by
  have hne : ¬ resp.status = 429 := by rw [h401]; decide
  have hauth2 : authenticate env now a { tr with forcedReauths := tr.forcedReauths + 1 } =
      (.ok true, ⟨some tok, now + ein - 60⟩,
       ⟨tr.authCalls + 1, tr.reqCalls, tr.forcedReauths + 1, tr.reqHeaders⟩) := by
    simp [authenticate, hauth]
  have hH : get_headers env now ⟨some tok, now + ein - 60⟩
      ⟨tr.authCalls + 1, tr.reqCalls, tr.forcedReauths + 1, tr.reqHeaders⟩ =
      (.ok [("Authorization", "Bearer " ++ tok)], ⟨some tok, now + ein - 60⟩,
       ⟨tr.authCalls + 1, tr.reqCalls, tr.forcedReauths + 1, tr.reqHeaders⟩) := by
    refine get_headers_valid env now _ _ tok rfl ?_
    simp only [is_expired, decide_eq_false_iff_not, not_le]
    linarith
  unfold getStatesAfterRl
  rw [if_neg hne, if_pos h401]
  simp only [hauth2, hH, doRequest]

theorem getStatesAfterRl_reqCalls_le (env : Env) (now : ℚ) (c : ClientState)
    (a : AuthState) (tr : Trace) (resp : HttpResponse) :
    (getStatesAfterRl env now c a tr resp).tr.reqCalls ≤ tr.reqCalls + 1 := by
  unfold getStatesAfterRl
  split
  · split
    · split <;> simp
    · simp
  · split
    · rcases hga : authenticate env now a { tr with forcedReauths := tr.forcedReauths + 1 }
        with ⟨ex1, a1, t1⟩
      have ht1 : t1.reqCalls = tr.reqCalls := by
        have h := (authenticate_trace env now a { tr with forcedReauths := tr.forcedReauths + 1 }).1
        rw [hga] at h
        simpa using h
      simp only [hga]
      split
      · simp [ht1]
      · rcases hgh : get_headers env now a1 t1 with ⟨ex2, a2, t2⟩
        have ht2 : t2.reqCalls = tr.reqCalls := by
          have h := (get_headers_trace env now a1 t1).1
          rw [hgh] at h
          simp at h
          omega
        simp only [hgh]
        split
        · simp [ht2]
        · simp only [doRequest]
          split
          · simp [ht2]
          · rw [finishResponse_tr]
            simp [ht2]
    · rw [finishResponse_tr]
      omega

theorem get_states_reqCalls_le (env : Env) (now : ℚ) (c : ClientState)
    (a : AuthState) (tr : Trace) :
    (get_states env now c a tr).tr.reqCalls ≤ tr.reqCalls + 2 := by
  by_cases hb : now < c.backoff_until
  · simp [get_states, hb]
  · rcases hgh : get_headers env now a tr with ⟨ex, a1, tr1⟩
    have hrc : tr1.reqCalls = tr.reqCalls := by
      have h := (get_headers_trace env now a tr).1
      rw [hgh] at h
      simpa using h
    simp only [get_states, hgh, doRequest]
    rw [if_neg hb]
    repeat' split
    all_goals try refine le_trans (getStatesAfterRl_reqCalls_le _ _ _ _ _ _) ?_
    all_goals try simp
    all_goals omega

theorem get_states_backoff (env : Env) (now : ℚ) (c : ClientState) (a : AuthState)
    (tr : Trace) (h : now < c.backoff_until) :
    get_states env now c a tr = ⟨.ok [], c, a, tr⟩ := by
  simp [get_states, h]

theorem get_states_success_rl_none (env : Env) (now : ℚ) (c : ClientState)
    (a : AuthState) (tr : Trace) (resp : HttpResponse)
    (hdrs : List (String × String))
    (hb : ¬ now < c.backoff_until)
    (hH : (get_headers env now a tr).1 = .ok hdrs)
    (hr : env.httpResp tr.reqCalls = .success resp)
    (hrl : resp.rateLimitRemaining = none) :
    get_states env now c a tr =
      getStatesAfterRl env now c (get_headers env now a tr).2.1
        (doRequest env hdrs (get_headers env now a tr).2.2).2 resp := by
  rw [get_states_success_shape env now c a tr resp hdrs hb hH hr, hrl]

theorem get_states_success_rl_some (env : Env) (now : ℚ) (c : ClientState)
    (a : AuthState) (tr : Trace) (resp : HttpResponse) (rl : String) (n : Int)
    (hdrs : List (String × String))
    (hb : ¬ now < c.backoff_until)
    (hH : (get_headers env now a tr).1 = .ok hdrs)
    (hr : env.httpResp tr.reqCalls = .success resp)
    (hrl : resp.rateLimitRemaining = some rl) (hn : pyInt rl = some n) :
    get_states env now c a tr =
      getStatesAfterRl env now { c with rate_limit_remaining := some n }
        (get_headers env now a tr).2.1
        (doRequest env hdrs (get_headers env now a tr).2.2).2 resp := by
  rw [get_states_success_shape env now c a tr resp hdrs hb hH hr, hrl]
  simp only [hn]

theorem getStatesAfterRl_result_ok (env : Env) (now : ℚ) (c : ClientState)
    (a : AuthState) (tr : Trace) (resp : HttpResponse)
    (hauthok : ∀ k, authOutcomeOk (env.authResp k) = true)
    (hra : headerIntOk resp.retryAfter = true)
    (hbody : statesBodyOk resp.body = true)
    (hnext : outcomeBenign (env.httpResp tr.reqCalls) = true) :
    ∃ l, (getStatesAfterRl env now c a tr resp).result = .ok l := by
  unfold getStatesAfterRl
  split
  · cases hx : resp.retryAfter with
    | none => exact ⟨[], rfl⟩
    | some s =>
      rw [hx] at hra
      simp only [headerIntOk] at hra
      cases hn : pyInt s with
      | none => rw [hn] at hra; simp at hra
      | some ra => exact ⟨[], by simp [hn]⟩
  · split
    · rcases hga : authenticate env now a { tr with forcedReauths := tr.forcedReauths + 1 }
        with ⟨ex1, a1, t1⟩
      have hex1 : ∃ b, ex1 = Except.ok b := by
        obtain ⟨b, hb⟩ := authenticate_ok env now a
          { tr with forcedReauths := tr.forcedReauths + 1 } (hauthok _)
        rw [hga] at hb
        exact ⟨b, by simpa using hb⟩
      obtain ⟨b, rfl⟩ := hex1
      have ht1 : t1.reqCalls = tr.reqCalls := by
        have h := (authenticate_trace env now a { tr with forcedReauths := tr.forcedReauths + 1 }).1
        rw [hga] at h
        simpa using h
      simp only [hga]
      rcases hgh : get_headers env now a1 t1 with ⟨ex2, a2, t2⟩
      have hex2 : ∃ hd, ex2 = Except.ok hd := by
        obtain ⟨hd, hh⟩ := get_headers_ok env now a1 t1 hauthok
        rw [hgh] at hh
        exact ⟨hd, by simpa using hh⟩
      obtain ⟨hd2, rfl⟩ := hex2
      have ht2 : t2.reqCalls = tr.reqCalls := by
        have h := (get_headers_trace env now a1 t1).1
        rw [hgh] at h
        simp at h
        omega
      simp only [hgh, doRequest, ht2]
      cases hout : env.httpResp tr.reqCalls with
      | netError => exact ⟨[], rfl⟩
      | success resp2 =>
        rw [hout] at hnext
        simp only [outcomeBenign, respBenign, Bool.and_eq_true] at hnext
        exact finishResponse_ok _ _ _ _ hnext.2
    · exact finishResponse_ok _ _ _ _ hbody

theorem get_states_429_full (env : Env) (now : ℚ) (c : ClientState) (a : AuthState)
    (tr : Trace) (resp : HttpResponse) (ra : Int) (hdrs : List (String × String))
    (hb : ¬ now < c.backoff_until)
    (hH : (get_headers env now a tr).1 = .ok hdrs)
    (hr : env.httpResp tr.reqCalls = .success resp)
    (hrl : headerIntOk resp.rateLimitRemaining = true)
    (h429 : resp.status = 429)
    (hra : retryAfterVal resp.retryAfter = some ra) :
    ∃ c' : ClientState, c'.backoff_until = now + ra ∧
      get_states env now c a tr = ⟨.ok [], c', (get_headers env now a tr).2.1,
        (doRequest env hdrs (get_headers env now a tr).2.2).2⟩ := by
  cases hrlv : resp.rateLimitRemaining with
  | none =>
    refine ⟨{ c with backoff_until := now + ra }, rfl, ?_⟩
    rw [get_states_success_rl_none env now c a tr resp hdrs hb hH hr hrlv,
      getStatesAfterRl_429 env now c _ _ resp ra h429 hra]
  | some rl =>
    rw [hrlv] at hrl
    simp only [headerIntOk] at hrl
    cases hn : pyInt rl with
    | none => rw [hn] at hrl; simp at hrl
    | some n =>
      refine ⟨{ c with rate_limit_remaining := some n, backoff_until := now + ra }, rfl, ?_⟩
      rw [get_states_success_rl_some env now c a tr resp rl n hdrs hb hH hr hrlv hn,
        getStatesAfterRl_429 env now _ _ _ resp ra h429 hra]

/-! ## Claims -/

/-- C1: for an aircraft that passes the filter and ceiling tests, appears
exactly once per batch, and is present in two consecutive `process_states`
cycles, the second cycle emits exactly one landing event when on_ground goes
false to true, exactly one takeoff event when it goes true to false, and no
event for that aircraft when it is unchanged. -/
theorem c1_consecutive_cycle_transition_events (m₁ : Monitor)
    (states₁ states₂ : List PState) (now₁ now₂ : String) (a : String) (s₁ s₂ : PState)
    (h₁ : states₁.filter (fun t => passes m₁ t && (t.icao24 == a)) = [s₁])
    (h₂ : states₂.filter
      (fun t => passes (process_states m₁ states₁ now₁).2 t && (t.icao24 == a)) = [s₂]) :
    eventsFor a (process_states (process_states m₁ states₁ now₁).2 states₂ now₂).1 =
      if s₁.on_ground && !s₂.on_ground then [make_event "takeoff" s₂ now₂]
      else if !s₁.on_ground && s₂.on_ground then [make_event "landing" s₂ now₂]
      else [] := by
  have hev := eventsFor_process_states (process_states m₁ states₁ now₁).2
    states₂ now₂ a s₂ h₂
  rw [hev]
  obtain ⟨hmem, hpass, hicao⟩ :=
    pred_of_filter_singleton (process_states m₁ states₁ now₁).2 a states₂ s₂ h₂
  obtain ⟨hm, hcl⟩ := (passes_iff _ s₂).mp hpass
  have hprev : dlookup (process_states m₁ states₁ now₁).2.prev_states a =
      some s₁.on_ground := by
    have h := process_states_prev m₁ states₁ now₁ a
    rw [lastMatch_of_filter_singleton m₁ a states₁ s₁ h₁] at h
    exact h
  simp only [stateEvents, hm, hcl, hicao, hprev, Bool.true_eq_false, Bool.false_eq_true,
    if_false]

/-- C2: an icao24 with no entry in the previous cycle's TrackedState that
survives the filter and ceiling tests yields exactly one new_ground event
when on ground and exactly one new_airborne event otherwise, and never a
takeoff or landing event in that cycle. -/
theorem c2_first_sighting_events (m : Monitor) (states : List PState) (now : String)
    (a : String) (s : PState)
    (hprev : dlookup m.prev_states a = none)
    (h : states.filter (fun t => passes m t && (t.icao24 == a)) = [s]) :
    eventsFor a (process_states m states now).1 =
      [make_event (if s.on_ground then "new_ground" else "new_airborne") s now]
    ∧ ∀ e ∈ eventsFor a (process_states m states now).1,
        e.type ≠ "takeoff" ∧ e.type ≠ "landing" := by
  obtain ⟨hmem, hpass, hicao⟩ := pred_of_filter_singleton m a states s h
  obtain ⟨hm, hcl⟩ := (passes_iff m s).mp hpass
  have hev := eventsFor_process_states m states now a s h
  have hse : stateEvents m now s =
      [make_event (if s.on_ground then "new_ground" else "new_airborne") s now] := by
    simp only [stateEvents, hm, hcl, hicao, hprev, Bool.true_eq_false,
      Bool.false_eq_true, if_false]
  refine ⟨by rw [hev, hse], ?_⟩
  intro e he
  rw [hev, hse] at he
  have heq : e = make_event (if s.on_ground then "new_ground" else "new_airborne") s now := by
    simpa using he
  subst heq
  by_cases hg : s.on_ground <;> simp [make_event, hg]

/-- C3 counterexample: `set_filter` on a monitor with a nonempty
TrackedState leaves the TrackedState nonempty, refuting the claim that any
`set_filter` call empties it. -/
theorem c3_counterexample :
    (set_filter mPrev (some "aircraft") (some ["A1B2C3"])).prev_states ≠ [] := by
  decide

/-- C3 amended: `set_filter` replaces the filter mode and the normalized
filter values but leaves the TrackedState untouched; `reset` empties the
TrackedState while leaving the filter mode and values unchanged. -/
theorem c3_amended_set_filter_reset (m : Monitor) (mode : Option String)
    (vals : Option (List String)) :
    (set_filter m mode vals).prev_states = m.prev_states
    ∧ (set_filter m mode vals).filter_mode = mode
    ∧ (set_filter m mode vals).filter_values = (vals.getD []).map (fun v => v.trim.toUpper)
    ∧ (reset m).prev_states = []
    ∧ (reset m).filter_mode = m.filter_mode
    ∧ (reset m).filter_values = m.filter_values :=
  ⟨rfl, rfl, rfl, rfl, rfl, rfl⟩

/-- C4: with a configured ceiling, states above it are ignored entirely —
removing them from the batch changes neither the emitted events nor the new
TrackedState, the exclusion test is exactly `baro_altitude > ceiling`, and
every icao24 in the new TrackedState comes from a state that passed both the
filter and the ceiling test. -/
theorem c4_ceiling_isolation (m : Monitor) (states : List PState) (now : String)
    (cm : ℚ) (hc : m.ceiling_m = some cm) :
    process_states m states now =
      process_states m (states.filter (fun s => !ceilingExcluded m s)) now
    ∧ (∀ s : PState, ceilingExcluded m s = true ↔
        ∃ alt, s.baro_altitude = some alt ∧ cm < alt)
    ∧ (∀ a : String,
        (dlookup (process_states m states now).2.prev_states a).isSome →
        ∃ s, s ∈ states ∧ matches_filter m s = true ∧ ceilingExcluded m s = false
          ∧ s.icao24 = a) := by
  refine ⟨?_, ?_, ?_⟩
  · simp [process_states, procAux_filter_ceiling]
  · intro s
    constructor
    · intro h
      unfold ceilingExcluded at h
      rw [hc] at h
      cases halt : s.baro_altitude with
      | none => rw [halt] at h; simp at h
      | some alt => rw [halt] at h; exact ⟨alt, rfl, by simpa using h⟩
    · rintro ⟨alt, halt, hlt⟩
      unfold ceilingExcluded
      rw [hc, halt]
      simpa using hlt
  · intro a hsome
    rw [process_states_prev] at hsome
    cases hl : lastMatch m a states with
    | none => rw [hl] at hsome; simp [dlookup] at hsome
    | some u =>
      obtain ⟨hmem, hpass, hicao⟩ := lastMatch_mem m a states u hl
      obtain ⟨hm, hcl⟩ := (passes_iff m u).mp hpass
      exact ⟨u, hmem, hm, hcl, hicao⟩

/-- C10: a state with no reported baro_altitude always passes the ceiling
test (the ceiling excludes exactly the states reporting an altitude strictly
above it), so such a state enters TrackedState whenever it passes the
filter. -/
theorem c10_missing_altitude_passes (m : Monitor) (states : List PState)
    (now : String) (s : PState) (halt : s.baro_altitude = none) :
    ceilingExcluded m s = false
    ∧ (∀ t : PState, ceilingExcluded m t = true ↔
        ∃ cm alt, m.ceiling_m = some cm ∧ t.baro_altitude = some alt ∧ cm < alt)
    ∧ (matches_filter m s = true → s ∈ states →
        (dlookup (process_states m states now).2.prev_states s.icao24).isSome) := by
  have hns : ceilingExcluded m s = false := by
    cases hcm : m.ceiling_m with
    | none => simp [ceilingExcluded, hcm]
    | some cm => simp [ceilingExcluded, hcm, halt]
  refine ⟨hns, ?_, ?_⟩
  · intro t
    cases hcm : m.ceiling_m with
    | none => simp [ceilingExcluded, hcm]
    | some cm =>
      cases hta : t.baro_altitude with
      | none => simp [ceilingExcluded, hcm, hta]
      | some alt => simp [ceilingExcluded, hcm, hta]
  · intro hm hmem
    rw [process_states_prev]
    cases hl : lastMatch m s.icao24 states with
    | some u => simp
    | none =>
      exfalso
      have hall := (lastMatch_eq_none m s.icao24 states).mp hl s hmem
      simp [passes, hm, hns] at hall

theorem broadcast_eq {α : Type} (qs : List (Subscriber α)) (m : α) :
    broadcast qs m = (qs.filter (fun t => t.buf.length < t.cap)).map
      (fun t => { t with buf := t.buf ++ [m] }) := by
  induction qs with
  | nil => rfl
  | cons q rest ih =>
    by_cases h : q.buf.length < q.cap
    · have hstep : broadcast (q :: rest) m =
          { q with buf := q.buf ++ [m] } :: broadcast rest m := by
        simp [broadcast, h]
      rw [hstep, ih, List.filter_cons, if_pos (by simpa using h), List.map_cons]
    · have hstep : broadcast (q :: rest) m = broadcast rest m := by
        simp [broadcast, h]
      rw [hstep, ih, List.filter_cons, if_neg (by simpa using h)]

theorem broadcast_ids_subset {α : Type} (qs : List (Subscriber α)) (m : α) (i : Nat)
    (h : i ∈ (broadcast qs m).map Subscriber.id) : i ∈ qs.map Subscriber.id := by
  rw [broadcast_eq, List.map_map] at h
  obtain ⟨u, hu, hid⟩ := List.mem_map.mp h
  exact List.mem_map.mpr ⟨u, List.mem_of_mem_filter hu, by simpa using hid⟩

theorem not_mem_ids_foldl_broadcast {α : Type} (i : Nat) (ms : List α) :
    ∀ b : List (Subscriber α), i ∉ b.map Subscriber.id →
      i ∉ (ms.foldl broadcast b).map Subscriber.id := by
  induction ms with
  | nil => intro b h; exact h
  | cons m' rest ih =>
    intro b h
    exact ih (broadcast b m') (fun hin => h (broadcast_ids_subset b m' i hin))

/-- C5 counterexample: concrete responses refute the claim that every
transient failure is converted to an empty list — a 200 response with the
non-integer X-Rate-Limit-Remaining header "many" escapes with ValueError
(`int(rl)`, api.py line 88); a 200 response whose decodable body is a JSON
array escapes with AttributeError (`data.get("states")`, api.py line 106);
a 200 response whose states entry is a bare number escapes with TypeError
(`len(raw)`, api.py line 35); and a token payload without access_token
escapes with KeyError out of `authenticate` (auth.py line 40) before any
state request is made. -/
theorem c5_counterexample :
    (get_states envBadHeader 0 client0 auth0 trace0).result = .error .valueError
    ∧ (get_states envArrayBody 0 client0 auth0 trace0).result = .error .attributeError
    ∧ (get_states envBadEntry 0 client0 auth0 trace0).result = .error .typeError
    ∧ (get_states envBadToken 0 client0 auth0 trace0).result = .error .keyError :=
  ⟨rfl, rfl, rfl, rfl⟩

/-- C5 amended: `get_states` converts every `requests.RequestException` —
network error, HTTP error status via `raise_for_status`, undecodable JSON
body — into a returned list (empty on such failures), but exceptions
outside that class escape to the caller, including: ValueError from `int()`
on a non-integer X-Rate-Limit-Remaining or Retry-After header; AttributeError
from `data.get("states")` on a decodable non-object body; TypeError on a
truthy non-iterable states value or a state entry without a length; KeyError
on positional indexing of an object state entry; AttributeError from
`.strip()` on a truthy non-string callsign; and KeyError escaping
`authenticate` when a decoded token payload lacks access_token. When every
token-endpoint interaction is free of that payload defect and the consumed
state responses are free of the response defects, the call returns a list. -/
theorem c5_amended_no_throw (env : Env) (now : ℚ) (c : ClientState)
    (a : AuthState) (tr : Trace)
    (hauthok : ∀ k, authOutcomeOk (env.authResp k) = true)
    (h1 : outcomeBenign (env.httpResp tr.reqCalls) = true)
    (h2 : outcomeBenign (env.httpResp (tr.reqCalls + 1)) = true) :
    (∃ l, (get_states env now c a tr).result = .ok l)
    ∧ (¬ now < c.backoff_until → env.httpResp tr.reqCalls = .netError →
        (get_states env now c a tr).result = .ok []) := by
  obtain ⟨hdrs, hH⟩ := get_headers_ok env now a tr hauthok
  refine ⟨?_, fun hb hne => (get_states_netError env now c a tr hdrs hb hH hne).1⟩
  by_cases hb : now < c.backoff_until
  · exact ⟨[], by rw [get_states_backoff env now c a tr hb]⟩
  · cases hre : env.httpResp tr.reqCalls with
    | netError => exact ⟨[], (get_states_netError env now c a tr hdrs hb hH hre).1⟩
    | success resp =>
      rw [hre] at h1
      simp only [outcomeBenign, respBenign, Bool.and_eq_true] at h1
      obtain ⟨⟨hh1, hh2⟩, hh3⟩ := h1
      have hT : ((doRequest env hdrs
          (get_headers env now a tr).2.2).2).reqCalls = tr.reqCalls + 1 := by
        simp [doRequest, (get_headers_trace env now a tr).1]
      cases hrlv : resp.rateLimitRemaining with
      | none =>
        rw [get_states_success_rl_none env now c a tr resp hdrs hb hH hre hrlv]
        exact getStatesAfterRl_result_ok env now c _ _ resp hauthok hh2 hh3
          (by rw [hT]; exact h2)
      | some rl =>
        rw [hrlv] at hh1
        simp only [headerIntOk] at hh1
        cases hn : pyInt rl with
        | none => rw [hn] at hh1; simp at hh1
        | some n =>
          rw [get_states_success_rl_some env now c a tr resp rl n hdrs hb hH hre hrlv hn]
          exact getStatesAfterRl_result_ok env now _ _ _ resp hauthok hh2 hh3
            (by rw [hT]; exact h2)

/-- C5 amended witness: a benign environment returns a parsed list, and a
network-error environment returns the empty list. -/
theorem c5_amended_witness :
    (∃ l, (get_states envOk 0 client0 auth0 trace0).result = .ok l)
    ∧ (get_states ⟨fun _ => .ok "tok" 1800, fun _ => .netError⟩ 0 client0 auth0
        trace0).result = .ok [] := by
  have h := c5_amended_no_throw envOk 0 client0 auth0 trace0 (fun _ => rfl)
    (by decide) (by decide)
  have h2 := c5_amended_no_throw ⟨fun _ => .ok "tok" 1800, fun _ => .netError⟩ 0
    client0 auth0 trace0 (fun _ => rfl) (by decide) (by decide)
  exact ⟨h.1, h2.2 (by decide) rfl⟩

/-- C6: on a 429 response `get_states` records a backoff deadline of
`now + Retry-After` (10 when the header is absent) and returns the empty
list after a single HTTP request, and every later call made before that
deadline returns the empty list at once, touching neither the client state
nor the interaction trace (no HTTP request is issued). The well-formed
header hypothesis and the well-formed token-payload hypothesis are forced by
the C5 escape defects, which would otherwise raise before the 429 branch. -/
theorem c6_rate_limited_backoff (env : Env) (now : ℚ) (c : ClientState)
    (a : AuthState) (tr : Trace) (resp : HttpResponse) (ra : Int)
    (hauthok : ∀ k, authOutcomeOk (env.authResp k) = true)
    (hb : ¬ now < c.backoff_until)
    (hr : env.httpResp tr.reqCalls = .success resp)
    (hrl : headerIntOk resp.rateLimitRemaining = true)
    (h429 : resp.status = 429)
    (hra : retryAfterVal resp.retryAfter = some ra) :
    (get_states env now c a tr).result = .ok []
    ∧ (get_states env now c a tr).client.backoff_until = now + ra
    ∧ (get_states env now c a tr).tr.reqCalls = tr.reqCalls + 1
    ∧ ∀ (env₂ : Env) (now₂ : ℚ) (a₂ : AuthState) (tr₂ : Trace),
        now₂ < (get_states env now c a tr).client.backoff_until →
        get_states env₂ now₂ (get_states env now c a tr).client a₂ tr₂ =
          ⟨.ok [], (get_states env now c a tr).client, a₂, tr₂⟩ := by
  obtain ⟨hdrs, hH⟩ := get_headers_ok env now a tr hauthok
  obtain ⟨c', hback, heq⟩ :=
    get_states_429_full env now c a tr resp ra hdrs hb hH hr hrl h429 hra
  rw [heq]
  refine ⟨rfl, hback, ?_, ?_⟩
  · show ((doRequest env hdrs
      (get_headers env now a tr).2.2).2).reqCalls = tr.reqCalls + 1
    simp [doRequest, (get_headers_trace env now a tr).1]
  · intro env₂ now₂ a₂ tr₂ hlt
    exact get_states_backoff env₂ now₂ c' a₂ tr₂ hlt

/-- C6 witness: a 429 with Retry-After 5 at t = 100 sets the deadline to
105 after one request; a second call at t = 102 returns empty with the
state and trace untouched, so only one HTTP request is ever sent. -/
theorem c6_witness :
    (get_states envRateLimited 100 client0 auth0 trace0).result = .ok []
    ∧ (get_states envRateLimited 100 client0 auth0 trace0).client.backoff_until = 105
    ∧ (get_states envRateLimited 100 client0 auth0 trace0).tr.reqCalls = 1
    ∧ get_states envRateLimited 102
        (get_states envRateLimited 100 client0 auth0 trace0).client auth0 trace0 =
        ⟨.ok [], (get_states envRateLimited 100 client0 auth0 trace0).client, auth0,
         trace0⟩ := by
  have h := c6_rate_limited_backoff envRateLimited 100 client0 auth0 trace0 resp429 5
    (fun _ => rfl) (by decide) rfl (by decide) rfl (by decide)
  refine ⟨h.1, ?_, h.2.2.1, h.2.2.2 envRateLimited 102 auth0 trace0 ?_⟩
  · rw [h.2.1]; decide
  · rw [h.2.1]; decide

/-- C7: a `get_states` call never issues more than two state requests; when
the first response is a 401 (and the current token was still valid), the
forced re-authentication branch runs exactly once, exactly one extra
authenticate call happens, the request is retried exactly once carrying the
freshly obtained bearer token, and a failure of the retried request
(network error or HTTP error status) yields the empty list with no further
retries. -/
theorem c7_auth_retry_once (env : Env) (now : ℚ) (c : ClientState) (a : AuthState)
    (tr : Trace) (resp : HttpResponse) (tok0 tok : String) (ein : ℚ)
    (hb : ¬ now < c.backoff_until)
    (htok : a.token = some tok0)
    (hexp : is_expired now a = false)
    (hr : env.httpResp tr.reqCalls = .success resp)
    (hrl : headerIntOk resp.rateLimitRemaining = true)
    (h401 : resp.status = 401)
    (hauth : env.authResp tr.authCalls = .ok tok ein)
    (hein : 60 < ein) :
    (∀ (env' : Env) (now' : ℚ) (c' : ClientState) (a' : AuthState) (tr' : Trace),
        (get_states env' now' c' a' tr').tr.reqCalls ≤ tr'.reqCalls + 2)
    ∧ (get_states env now c a tr).tr.reqCalls = tr.reqCalls + 2
    ∧ (get_states env now c a tr).tr.authCalls = tr.authCalls + 1
    ∧ (get_states env now c a tr).tr.forcedReauths = tr.forcedReauths + 1
    ∧ (get_states env now c a tr).tr.reqHeaders = tr.reqHeaders ++
        [[("Authorization", "Bearer " ++ tok0)], [("Authorization", "Bearer " ++ tok)]]
    ∧ (env.httpResp (tr.reqCalls + 1) = .netError →
        (get_states env now c a tr).result = .ok [])
    ∧ (∀ resp2 : HttpResponse, env.httpResp (tr.reqCalls + 1) = .success resp2 →
        400 ≤ resp2.status → resp2.status < 600 →
        (get_states env now c a tr).result = .ok []) := by
  have hGH := get_headers_valid env now a tr tok0 htok hexp
  obtain ⟨c', hrun⟩ : ∃ c' : ClientState, get_states env now c a tr =
      match env.httpResp (tr.reqCalls + 1) with
      | .netError => ⟨.ok [], c', ⟨some tok, now + ein - 60⟩,
          ⟨tr.authCalls + 1, tr.reqCalls + 1 + 1, tr.forcedReauths + 1,
           tr.reqHeaders ++ [[("Authorization", "Bearer " ++ tok0)]]
             ++ [[("Authorization", "Bearer " ++ tok)]]⟩⟩
      | .success resp2 => finishResponse c' ⟨some tok, now + ein - 60⟩
          ⟨tr.authCalls + 1, tr.reqCalls + 1 + 1, tr.forcedReauths + 1,
           tr.reqHeaders ++ [[("Authorization", "Bearer " ++ tok0)]]
             ++ [[("Authorization", "Bearer " ++ tok)]]⟩ resp2 := by
    cases hrlv : resp.rateLimitRemaining with
    | none =>
      refine ⟨c, ?_⟩
      rw [get_states_success_rl_none env now c a tr resp
        [("Authorization", "Bearer " ++ tok0)] hb (by rw [hGH]) hr hrlv]
      simp only [hGH, doRequest]
      rw [getStatesAfterRl_401 env now c a
        ⟨tr.authCalls, tr.reqCalls + 1, tr.forcedReauths,
         tr.reqHeaders ++ [[("Authorization", "Bearer " ++ tok0)]]⟩
        resp tok ein h401 hauth hein]
    | some rl =>
      rw [hrlv] at hrl
      simp only [headerIntOk] at hrl
      cases hn : pyInt rl with
      | none => rw [hn] at hrl; simp at hrl
      | some n =>
        refine ⟨{ c with rate_limit_remaining := some n }, ?_⟩
        rw [get_states_success_rl_some env now c a tr resp rl n
          [("Authorization", "Bearer " ++ tok0)] hb (by rw [hGH]) hr hrlv hn]
        simp only [hGH, doRequest]
        rw [getStatesAfterRl_401 env now { c with rate_limit_remaining := some n } a
          ⟨tr.authCalls, tr.reqCalls + 1, tr.forcedReauths,
           tr.reqHeaders ++ [[("Authorization", "Bearer " ++ tok0)]]⟩
          resp tok ein h401 hauth hein]
  refine ⟨fun env' now' c' a' tr' => get_states_reqCalls_le env' now' c' a' tr',
    ?_, ?_, ?_, ?_, ?_, ?_⟩
  · rw [hrun]
    cases hout : env.httpResp (tr.reqCalls + 1) with
    | netError => rfl
    | success resp2 => rw [(finishResponse_state _ _ _ resp2).2.2]
  · rw [hrun]
    cases hout : env.httpResp (tr.reqCalls + 1) with
    | netError => rfl
    | success resp2 => rw [(finishResponse_state _ _ _ resp2).2.2]
  · rw [hrun]
    cases hout : env.httpResp (tr.reqCalls + 1) with
    | netError => rfl
    | success resp2 => rw [(finishResponse_state _ _ _ resp2).2.2]
  · rw [hrun]
    cases hout : env.httpResp (tr.reqCalls + 1) with
    | netError => simp
    | success resp2 =>
      rw [(finishResponse_state _ _ _ resp2).2.2]
      simp
  · intro hne
    rw [hrun, hne]
  · intro resp2 hs h4 h6
    rw [hrun, hs]
    exact finishResponse_httpError _ _ _ resp2 h4 h6

/-- C7 witness: with a valid token, a 401 first response and a 500 on the
retry, one call issues exactly two requests (stale then fresh bearer), one
forced re-authentication, and returns the empty list. -/
theorem c7_witness :
    (get_states envAuthRetry 100 client0 authValid trace0).result = .ok []
    ∧ (get_states envAuthRetry 100 client0 authValid trace0).tr.reqCalls = 2
    ∧ (get_states envAuthRetry 100 client0 authValid trace0).tr.authCalls = 1
    ∧ (get_states envAuthRetry 100 client0 authValid trace0).tr.forcedReauths = 1
    ∧ (get_states envAuthRetry 100 client0 authValid trace0).tr.reqHeaders =
        [[("Authorization", "Bearer stale")], [("Authorization", "Bearer fresh")]] := by
  have h := c7_auth_retry_once envAuthRetry 100 client0 authValid trace0 resp401
    "stale" "fresh" 1800 (by decide) rfl (by decide) rfl (by decide) rfl rfl (by decide)
  refine ⟨h.2.2.2.2.2.2 resp500 rfl (by decide) (by decide), by simpa using h.2.1,
    by simpa using h.2.2.1, by simpa using h.2.2.2.1, by simpa using h.2.2.2.2.1⟩

/-- C1 witness: a1b2c3 on the ground in cycle 1 and airborne in cycle 2
yields exactly one takeoff event in cycle 2. -/
theorem c1_witness :
    eventsFor "a1b2c3"
      (process_states (process_states mW [sGround] "t1").2 [sAir] "t2").1 =
      [make_event "takeoff" sAir "t2"] := by
  have h := c1_consecutive_cycle_transition_events mW [sGround] [sAir] "t1" "t2"
    "a1b2c3" sGround sAir (by decide) (by decide)
  rw [h]
  decide

/-- C2 witness: a1b2c3 appearing airborne with an empty TrackedState yields
exactly one new_airborne event and no takeoff/landing. -/
theorem c2_witness :
    eventsFor "a1b2c3" (process_states mW [sAir] "t1").1 =
      [make_event "new_airborne" sAir "t1"] := by
  have h := c2_first_sighting_events mW [sAir] "t1" "a1b2c3" sAir (by decide) (by decide)
  rw [h.1]
  decide

/-- C4 witness: with the default 1500 ft ceiling, dropping the 5000 m state
from the batch changes nothing, and the exclusion test for it is its
altitude exceeding 457.2 m. -/
theorem c4_witness :
    process_states mW [sHigh, sGround] "t" =
      process_states mW ([sHigh, sGround].filter (fun s => !ceilingExcluded mW s)) "t"
    ∧ (ceilingExcluded mW sHigh = true ↔
        ∃ alt, sHigh.baro_altitude = some alt ∧ (457.2 : ℚ) < alt) := by
  have h := c4_ceiling_isolation mW [sHigh, sGround] "t" (457.2 : ℚ) (by decide)
  exact ⟨h.1, h.2.1 sHigh⟩

/-- C10 witness: a state with no altitude passes the ceiling test and enters
TrackedState. -/
theorem c10_witness :
    ceilingExcluded mW sNoAlt = false
    ∧ (dlookup (process_states mW [sNoAlt] "t").2.prev_states "c3d4e5").isSome := by
  have h := c10_missing_altitude_passes mW [sNoAlt] "t" sNoAlt (by decide)
  exact ⟨h.1, h.2.2 (by decide) (by decide)⟩

/-- C8: one publish attempts a non-blocking enqueue of the same message on
every live subscriber queue in subscription order — the surviving queues are
exactly those with room, in their original order, each extended by the
message — and a subscriber whose queue is full at publish time is removed at
the end of that publish call and is absent from the active set after every
later publish, so it receives no further messages. -/
theorem c8_publish_fanout {α : Type} (qs : List (Subscriber α)) (m : α)
    (q : Subscriber α)
    (hmem : q ∈ qs) (hfull : ¬ q.buf.length < q.cap)
    (hnodup : (qs.map Subscriber.id).Nodup) :
    broadcast qs m = (qs.filter (fun t => t.buf.length < t.cap)).map
      (fun t => { t with buf := t.buf ++ [m] })
    ∧ q.id ∉ (broadcast qs m).map Subscriber.id
    ∧ ∀ ms : List α, q.id ∉ (ms.foldl broadcast (broadcast qs m)).map Subscriber.id := by
  have hnotin : q.id ∉ (broadcast qs m).map Subscriber.id := by
    intro hin
    rw [broadcast_eq, List.map_map] at hin
    obtain ⟨u, hu, hid⟩ := List.mem_map.mp hin
    have huq : u ∈ qs := List.mem_of_mem_filter hu
    have hroom : u.buf.length < u.cap := by simpa using (List.mem_filter.mp hu).2
    have huq2 : u = q :=
      List.inj_on_of_nodup_map hnodup huq hmem (by simpa using hid)
    rw [huq2] at hroom
    exact hfull hroom
  exact ⟨broadcast_eq qs m, hnotin,
    fun ms => not_mem_ids_foldl_broadcast q.id ms (broadcast qs m) hnotin⟩

/-- C8 witness: publishing 7 to an open queue and a full queue delivers to
the open one only, evicts the full one, and the evicted subscriber is absent
after two further publishes. -/
theorem c8_witness :
    broadcast [subOpen, subFull] (7 : Nat) = [⟨1, 2, [7]⟩]
    ∧ (2 : Nat) ∉ (broadcast [subOpen, subFull] (7 : Nat)).map Subscriber.id
    ∧ (2 : Nat) ∉
        (([8, 9] : List Nat).foldl broadcast (broadcast [subOpen, subFull] 7)).map
          Subscriber.id := by
  have h := c8_publish_fanout [subOpen, subFull] (7 : Nat) subFull (by decide)
    (by decide) (by decide)
  refine ⟨?_, h.2.1, h.2.2 [8, 9]⟩
  rw [h.1]
  decide

/-- C9: the claim says both poll loops sleep cancellably; evaluating the
embedded sleep primitives at the failing input (interval 10, stop signalled
at 1 second) shows the web app's `time.sleep` runs its full 10 seconds and
does not end early, while the desktop UI's `Event.wait` returns after 1
second as the claim describes. -/
theorem c9_web_sleep_not_cancellable :
    sleepDuration (webPollSleep 10) (some 1) = 10
    ∧ ¬ sleepDuration (webPollSleep 10) (some 1) < 10
    ∧ sleepDuration (uiPollSleep 10) (some 1) = 1 := by
  refine ⟨rfl, by norm_num [sleepDuration, webPollSleep], ?_⟩
  show min (10 : ℚ) 1 = 1
  norm_num

end Glycol
